import Mathlib

/-!
Verification development for the ErriezDHT22 sensor driver
(`src/ErriezDHT22.cpp`, `src/DHT22.h`).

The driver is embedded shallowly:

* Machine integers are modelled as `Nat`/`Int` with explicit wrapping
  (`% 256` for `uint8_t` bytes, `wrap16` for `int16_t`, `% 2^32` for the
  `uint32_t` millisecond clock).
* The hardware line is modelled as an environment: `measurePulseWidth`
  reads a trace of line levels, and one retry attempt of `readSensorData`
  is driven by an `Attempt` record holding the pulse widths the
  environment would produce for that attempt.
* The mutable `DHT22` object is a `DHTState` record threaded explicitly.
-/

namespace DHT22

/-- `int16_t` wrap-around: reduce an integer to the range [-32768, 32767],
matching the conversion C performs when an `int` value is stored in an
`int16_t` variable. -/
def wrap16 (x : Int) : Int := (x + 32768) % 65536 - 32768

/-- The five-byte sensor data array `_data` (humidity high, humidity low,
temperature high, temperature low, parity), modelled as a function from
index to byte value. -/
def Data : Type := Nat → Nat

/-- Write one entry of the data array. -/
def setData (d : Data) (i : Nat) (v : Nat) : Data :=
  fun j => if j = i then v else d j

/-- The all-zero data array produced by `memset(_data, 0, sizeof(_data))`. -/
def zeroData : Data := fun _ => 0

/-- One pulse-width measurement environment for `measurePulseWidth`:
`line t` is the logic level the pin shows at the `t`-th poll of the
busy-wait loop. -/
def Line : Type := Nat → Bool

/-- Loop body of `DHT22::measurePulseWidth` (ErriezDHT22.cpp lines 377-399):
poll the line while it equals `level`; the counter is post-incremented, so
iteration `count` compares `count` against `_maxCycles` and returns the
timeout sentinel 0 once `count ≥ maxCycles`.  The fuel argument only
bounds the recursion; `maxCycles + 1` fuel is enough to reach either exit. -/
def measureGo (line : Line) (level : Bool) (maxCycles : Nat) : Nat → Nat → Nat
  | _, 0 => 0
  | count, fuel + 1 =>
    if line count = level then
      if count ≥ maxCycles then 0
      else measureGo line level maxCycles (count + 1) fuel
    else count

/-- `DHT22::measurePulseWidth(level)`: tick count until the line leaves
`level`, or the sentinel 0 on timeout. -/
def measurePulseWidth (line : Line) (level : Bool) (maxCycles : Nat) : Nat :=
  measureGo line level maxCycles 0 (maxCycles + 1)

/-- Environment of one read attempt: the two pulse widths the sensor
produces in response to the start condition (`measurePulseWidth(LOW)` and
`measurePulseWidth(HIGH)` in `generateStart`), and the 40 low/high
pulse-width pairs captured into `cycles[]` by `readBytes`. -/
structure Attempt where
  startLow : Nat
  startHigh : Nat
  pulses : List (Nat × Nat)

/-- `DHT22::generateStart` (ErriezDHT22.cpp lines 290-317): after the
scripted output sequence, fail (return `false`) when either acknowledgement
pulse measurement returns the timeout sentinel 0. -/
def generateStart (a : Attempt) : Bool :=
  if a.startLow = 0 then false
  else if a.startHigh = 0 then false
  else true

/-- Shift one decoded bit into a byte: `_data[byteIndex] <<= 1` on a
`uint8_t` (wraps modulo 256) followed by `_data[byteIndex] |= 1` when the
high phase was longer than the low phase. -/
def pushBit (d : Nat) (b : Bool) : Nat :=
  ((d <<< 1) % 256) ||| (if b then 1 else 0)

/-- Bit-conversion loop of `DHT22::readBytes` (ErriezDHT22.cpp lines
347-364): for bit index `i`, a zero low or high cycle count aborts with
`false` (leaving the partially filled data array), otherwise the bit
`highCycles > lowCycles` is shifted into `_data[i / 8]`. -/
def readBytesGo : List (Nat × Nat) → Nat → Data → Bool × Data
  | [], _, d => (true, d)
  | lh :: ps, i, d =>
    if lh.1 = 0 ∨ lh.2 = 0 then (false, d)
    else readBytesGo ps (i + 1) (setData d (i / 8) (pushBit (d (i / 8)) (decide (lh.2 > lh.1))))

/-- `DHT22::readBytes` (ErriezDHT22.cpp lines 329-367): clear `_data`,
then decode the captured pulse pairs. -/
def readBytes (ps : List (Nat × Nat)) : Bool × Data :=
  readBytesGo ps 0 zeroData

/-- Checksum test of `DHT22::readSensorData` (ErriezDHT22.cpp line 261):
`((_data[0] + _data[1] + _data[2] + _data[3]) & 0xFF) == _data[4]`. -/
def checksumOkB (d : Data) : Bool :=
  ((d 0 + d 1 + d 2 + d 3) &&& 255) == d 4

/-- One iteration of the retry loop body of `DHT22::readSensorData`
(ErriezDHT22.cpp lines 240-266): optimistically successful, failed by a
bad start condition, a byte-read error, or a checksum mismatch; the data
array is only touched when `generateStart` succeeded. -/
def runAttempt (a : Attempt) (d : Data) : Bool × Data :=
  if generateStart a = false then (false, d)
  else if (readBytes a.pulses).1 = false then (false, (readBytes a.pulses).2)
  else if checksumOkB (readBytes a.pulses).2 = false then (false, (readBytes a.pulses).2)
  else (true, (readBytes a.pulses).2)

/-- Success status of a single attempt; it does not depend on the incoming
data array because `readBytes` clears `_data` first. -/
def attemptOk (a : Attempt) : Bool :=
  (runAttempt a zeroData).1

/-- Retry loop of `DHT22::readSensorData` (ErriezDHT22.cpp line 239):
`for (_numReadRetries = 0; _numReadRetries <= _maxReadRetries;
_numReadRetries++)`, breaking on the first successful attempt.  Called
with fuel `_maxReadRetries + 1`; returns the final loop counter, success
flag and data array. -/
def runAttempts (env : Nat → Attempt) : Nat → Nat → Data → Nat × Bool × Data
  | i, 0, d => (i, false, d)
  | i, fuel + 1, d =>
    if (runAttempt (env i) d).1 then (i, true, (runAttempt (env i) d).2)
    else runAttempts env (i + 1) fuel (runAttempt (env i) d).2

/-- Modelled from the spec: the driver state.  The field declarations live
in `ErriezDHT22.h`, which is not part of the sources at hand (the included
`DHT22.h` is an older revision without retry and averaging members), so
retry counters, sample cursors and sample counts are taken as the
unbounded naturals the spec describes, and the `malloc`-ed
`int16_t` averaging buffers as optional integer lists (`none` = `NULL`,
averaging disabled).  Everything else mirrors `DHT22.h`. -/
structure DHTState where
  lastMeasurementTimestamp : Nat := 0
  statusLastMeasurement : Bool := false
  data : Data := zeroData
  numReadRetries : Nat := 0
  maxReadRetries : Nat := 2
  numSamples : Nat := 0
  temperatureSamples : Option (List Int) := none
  temperatureSampleIndex : Nat := 0
  numTemperatureSamples : Nat := 0
  humiditySamples : Option (List Int) := none
  humiditySampleIndex : Nat := 0
  numHumiditySamples : Nat := 0

/-- `DHT22::readSensorData` (ErriezDHT22.cpp lines 233-278): store the
attempt timestamp, run the bounded retry loop, cap the recorded retry
count at `_maxReadRetries` and record the final status and data. -/
def readSensorData (env : Nat → Attempt) (now : Nat) (s : DHTState) : DHTState :=
  { s with
    lastMeasurementTimestamp := now
    numReadRetries := min (runAttempts env 0 (s.maxReadRetries + 1) s.data).1 s.maxReadRetries
    statusLastMeasurement := (runAttempts env 0 (s.maxReadRetries + 1) s.data).2.1
    data := (runAttempts env 0 (s.maxReadRetries + 1) s.data).2.2 }

/-- `uint32_t` subtraction `millis() - _lastMeasurementTimestamp`
(ErriezDHT22.cpp line 111). -/
def elapsedMillis (now last : Nat) : Nat :=
  (now % 4294967296 + 4294967296 - last % 4294967296) % 4294967296

/-- `DHT22::available` (ErriezDHT22.cpp lines 109-118): below the minimum
2000 ms interval return `false` without touching the sensor, otherwise run
`readSensorData`. -/
def available (env : Nat → Attempt) (now : Nat) (s : DHTState) : Bool × DHTState :=
  if elapsedMillis now s.lastMeasurementTimestamp < 2000 then (false, s)
  else
    let s' := readSensorData env now s
    (s'.statusLastMeasurement, s')

/-- Raw signed temperature decode of `DHT22::readTemperature`
(ErriezDHT22.cpp lines 140-143): `((_data[2] & 0x7F) << 8) | _data[3]`
stored in an `int16_t`, negated when the sign bit `_data[2] & 0x80` is
set. -/
def rawTemperature (d : Data) : Int :=
  let t := wrap16 ((((d 2 &&& 127) <<< 8) ||| d 3 : Nat) : Int)
  if d 2 &&& 128 ≠ 0 then wrap16 (-t) else t

/-- Raw humidity decode of `DHT22::readHumidity` (ErriezDHT22.cpp line
184): `(_data[0] << 8) | _data[1]` stored in an `int16_t`. -/
def rawHumidity (d : Data) : Int :=
  wrap16 (((d 0 <<< 8) ||| d 1 : Nat) : Int)

/-- `int16_t` accumulation loop `value += samples[i]` over the first
`cnt` buffer entries, wrapping at every step. -/
def sumSamples (buf : List Int) (cnt : Nat) : Int :=
  (buf.take cnt).foldl (fun a x => wrap16 (a + x)) 0

/-- Averaging block shared verbatim by `DHT22::readTemperature`
(ErriezDHT22.cpp lines 146-161) and `DHT22::readHumidity` (lines 187-202):
store the raw value at slot `index % cap` (the index itself is
post-incremented), bump the valid-sample count while it is below capacity,
then return the wrapping `int16_t` sum of the valid entries divided by
their number (C division truncates toward zero).  Returns the average,
the new buffer and the new valid-sample count. -/
def foldSample (buf : List Int) (idx cnt cap : Nat) (v : Int) : Int × List Int × Nat :=
  let buf' := buf.set (idx % cap) v
  let cnt' := if cnt < cap then cnt + 1 else cnt
  (Int.tdiv (sumSamples buf' cnt') cnt', buf', cnt')

/-- `DHT22::readTemperature` (ErriezDHT22.cpp lines 130-164): the sentinel
`~0` (= -1 as `int16_t`) on a failed last measurement; otherwise the raw
sign-magnitude decode, folded into the averaging buffer when averaging is
enabled and the raw value is not `~0`. -/
def readTemperature (s : DHTState) : Int × DHTState :=
  if s.statusLastMeasurement ≠ true then (-1, s)
  else
    let t := rawTemperature s.data
    match s.temperatureSamples with
    | none => (t, s)
    | some buf =>
      if t ≠ -1 then
        let r := foldSample buf s.temperatureSampleIndex s.numTemperatureSamples s.numSamples t
        (r.1, { s with
                  temperatureSamples := some r.2.1
                  temperatureSampleIndex := s.temperatureSampleIndex + 1
                  numTemperatureSamples := r.2.2 })
      else (t, s)

/-- `DHT22::readHumidity` (ErriezDHT22.cpp lines 174-205): mirror image of
`readTemperature` over the humidity bytes and humidity buffer. -/
def readHumidity (s : DHTState) : Int × DHTState :=
  if s.statusLastMeasurement ≠ true then (-1, s)
  else
    let h := rawHumidity s.data
    match s.humiditySamples with
    | none => (h, s)
    | some buf =>
      if h ≠ -1 then
        let r := foldSample buf s.humiditySampleIndex s.numHumiditySamples s.numSamples h
        (r.1, { s with
                  humiditySamples := some r.2.1
                  humiditySampleIndex := s.humiditySampleIndex + 1
                  numHumiditySamples := r.2.2 })
      else (h, s)

/-- `DHT22::getNumRetriesLastConversion` (ErriezDHT22.cpp lines 212-215). -/
def getNumRetriesLastConversion (s : DHTState) : Nat :=
  s.numReadRetries

/-- The eight bits of a byte, most significant first, as transmitted by
the sensor. -/
def bitsOfByte (b : Nat) : List Bool :=
  [b.testBit 7, b.testBit 6, b.testBit 5, b.testBit 4,
   b.testBit 3, b.testBit 2, b.testBit 1, b.testBit 0]

/-- The 40 source bits of a five-byte payload, MSB-first in arrival
order. -/
def sourceBits (b0 b1 b2 b3 b4 : Nat) : List Bool :=
  bitsOfByte b0 ++ bitsOfByte b1 ++ bitsOfByte b2 ++ bitsOfByte b3 ++ bitsOfByte b4

/-- A pulse-width sample list encodes a bit list: pairwise, both phases
are non-zero (no timeout) and the high phase is strictly longer than the
low phase exactly for a 1 bit. -/
def consistentB : List (Nat × Nat) → List Bool → Bool
  | [], [] => true
  | lh :: ps, b :: bs =>
    (!(lh.1 == 0)) && (!(lh.2 == 0)) && (decide (lh.2 > lh.1) == b) && consistentB ps bs
  | _, _ => false

/-- Pure bit-storing loop: what `readBytesGo` computes when no sample is
zero. -/
def storeBits : Data → Nat → List Bool → Data
  | d, _, [] => d
  | d, i, b :: bs => storeBits (setData d (i / 8) (pushBit (d (i / 8)) b)) (i + 1) bs

/-- Accumulate a bit list into a single byte, MSB first. -/
def pushBits : Nat → List Bool → Nat
  | d, [] => d
  | d, b :: bs => pushBits (pushBit d b) bs

/-- An attempt environment contains a timeout: some pulse measurement of
the attempt returned the sentinel 0, in the start condition or in the
80-sample capture. -/
def hasTimeoutB (a : Attempt) : Bool :=
  (a.startLow == 0) || (a.startHigh == 0) ||
    a.pulses.any (fun p => (p.1 == 0) || (p.2 == 0))

/-- All intermediate `int16_t` sums of a list of samples stay in range, so
the wrapping accumulation agrees with exact integer summation. -/
def PrefixBounded (l : List Int) : Prop :=
  ∀ k, k ≤ l.length → -32768 ≤ (l.take k).sum ∧ (l.take k).sum ≤ 32767

/-- Synthetic pulse train encoding a bit list: 20 low / 10 high cycles
for a 0 bit, 10 low / 20 high cycles for a 1 bit. -/
def pulsesOfBits (bs : List Bool) : List (Nat × Nat) :=
  bs.map (fun b => if b then (10, 20) else (20, 10))

/-- An environment in which every pulse measurement times out. -/
def envTimeout : Nat → Attempt := fun _ => ⟨0, 0, []⟩

/-- A data array holding only the two temperature bytes. -/
def dataTH (b2 b3 : Nat) : Data :=
  fun j => if j = 2 then b2 else if j = 3 then b3 else 0

/-- Concrete state for the interval analysis: the previous attempt
succeeded and happened at time 0. -/
def st3 : DHTState :=
  { statusLastMeasurement := true, lastMeasurementTimestamp := 0 }

/-- Concrete state for the repeated-query analysis: two-sample averaging,
one prior sample 100, cached payload decoding to temperature 300. -/
def st5 : DHTState :=
  { statusLastMeasurement := true
    data := dataTH 1 44
    numSamples := 2
    temperatureSamples := some [100, 0]
    temperatureSampleIndex := 1
    numTemperatureSamples := 1 }

/-- Concrete state whose cached payload decodes to temperature `-1`
(bytes 0x80, 0x01), with averaging enabled. -/
def st4a : DHTState :=
  { statusLastMeasurement := true
    data := dataTH 128 1
    numSamples := 2
    temperatureSamples := some [100, 0]
    temperatureSampleIndex := 1
    numTemperatureSamples := 1 }

/-- Concrete state whose averaging sum overflows `int16_t`: one prior
sample 30000 and a cached payload decoding to 30000 again. -/
def st4b : DHTState :=
  { statusLastMeasurement := true
    data := dataTH 117 48
    numSamples := 3
    temperatureSamples := some [30000, 0, 0]
    temperatureSampleIndex := 1
    numTemperatureSamples := 1 }

/-- Concrete state for the averaging round trip: same shape as `st5`. -/
def st4w : DHTState :=
  { statusLastMeasurement := true
    data := dataTH 1 44
    numSamples := 2
    temperatureSamples := some [100, 0]
    temperatureSampleIndex := 1
    numTemperatureSamples := 1 }

/-- Concrete state holding the negative-temperature payload 0x80, 0x19. -/
def st8 : DHTState :=
  { statusLastMeasurement := true, data := dataTH 128 25 }

/-- Concrete successful state with averaging disabled. -/
def st5w : DHTState :=
  { statusLastMeasurement := true, data := dataTH 1 44 }

end DHT22

namespace DHT22

/-- `int16_t` wrapping is the identity on values already in range. -/
theorem wrap16_eq_self {x : Int} (h1 : -32768 ≤ x) (h2 : x ≤ 32767) : wrap16 x = x := by
  unfold wrap16
  have h : (x + 32768) % 65536 = x + 32768 := Int.emod_eq_of_lt (by omega) (by omega)
  omega

/-- The busy-wait loop never terminates with a non-zero count on a line
stuck at the polled level: it runs into the timeout sentinel. -/
theorem measureGo_stuck (line : Line) (level : Bool) (maxCycles : Nat)
    (h : ∀ t, line t = level) :
    ∀ fuel count, measureGo line level maxCycles count fuel = 0 := by
  intro fuel
  induction fuel with
  | zero => intro count; rfl
  | succ n ih =>
    intro count
    simp only [measureGo, h count, if_pos]
    split
    · rfl
    · exact ih (count + 1)

/-- Claim C10: if the line level differs from `targetLevel` at the very
first poll (a zero-width pulse), `measurePulseWidth` returns 0, the same
sentinel it returns on timeout, so a zero-width pulse is indistinguishable
from a timeout at the caller. -/
theorem claim_C10 (line : Line) (level : Bool) (maxCycles : Nat) :
    (line 0 ≠ level → measurePulseWidth line level maxCycles = 0) ∧
    ((∀ t, line t = level) → measurePulseWidth line level maxCycles = 0) := by
  constructor
  · intro h
    simp [measurePulseWidth, measureGo, h]
  · intro h
    exact measureGo_stuck line level maxCycles h (maxCycles + 1) 0

/-- Claim C10, witness: a line that is low at the first poll yields the
sentinel 0 when a high pulse is measured. -/
theorem claim_C10_witness :
    measurePulseWidth (fun _ => false) true 1000 = 0 :=
  (claim_C10 (fun _ => false) true 1000).1 (by decide)

/-- Claim C7: after a failed measurement both value queries return the
all-ones sentinel `~0` (that is, -1 as a signed 16-bit value) and leave
the whole state, in particular the averaging buffers, cursors and counts,
unchanged. -/
theorem claim_C7 (s : DHTState) (h : s.statusLastMeasurement = false) :
    readTemperature s = (-1, s) ∧ readHumidity s = (-1, s) := by
  constructor
  · simp [readTemperature, h]
  · simp [readHumidity, h]

/-- Claim C7, witness: the freshly constructed state has a failed status
and both queries return the sentinel. -/
theorem claim_C7_witness :
    readTemperature ({} : DHTState) = (-1, ({} : DHTState)) ∧
    readHumidity ({} : DHTState) = (-1, ({} : DHTState)) :=
  claim_C7 {} rfl

/-- Claim C3 (amended): a call to `available` less than 2000 ms after the
start of the previous attempted read performs no hardware transaction and
returns `false` with the state unchanged, regardless of the previous
outcome. -/
theorem claim_C3 (env : Nat → Attempt) (now : Nat) (s : DHTState)
    (h : elapsedMillis now s.lastMeasurementTimestamp < 2000) :
    available env now s = (false, s) := by
  simp [available, h]

/-- Claim C3, witness: 1000 ms after a read, `available` returns `false`
and leaves the state alone. -/
theorem claim_C3_witness :
    available envTimeout 1000 st3 = (false, st3) :=
  claim_C3 envTimeout 1000 st3 (by decide)

/-- Claim C3, counterexample: the previous attempt succeeded
(`st3.statusLastMeasurement = true`), yet the second call 1000 ms later
returns `false`, not the prior outcome. -/
theorem claim_C3_counterexample :
    st3.statusLastMeasurement = true ∧
    (available envTimeout 1000 st3).1 = false ∧
    (available envTimeout 1000 st3).1 ≠ st3.statusLastMeasurement := by
  refine ⟨rfl, ?_, ?_⟩ <;> decide

/-- Claim C5 (amended): with averaging disabled, repeated value queries
after a successful read return the cached decoded value each time and do
not change the state; with averaging enabled the cached raw value is
folded into the buffer again on every query, so repeated queries may
return different averages. -/
theorem claim_C5 (s : DHTState) (hs : s.statusLastMeasurement = true)
    (ht : s.temperatureSamples = none) (hh : s.humiditySamples = none) :
    readTemperature s = (rawTemperature s.data, s) ∧
    readHumidity s = (rawHumidity s.data, s) ∧
    (readTemperature (readTemperature s).2).1 = (readTemperature s).1 ∧
    (readHumidity (readHumidity s).2).1 = (readHumidity s).1 := by
  have hT : readTemperature s = (rawTemperature s.data, s) := by
    simp [readTemperature, hs, ht]
  have hH : readHumidity s = (rawHumidity s.data, s) := by
    simp [readHumidity, hs, hh]
  refine ⟨hT, hH, ?_, ?_⟩
  · rw [hT]
    show (readTemperature s).1 = rawTemperature s.data
    rw [hT]
  · rw [hH]
    show (readHumidity s).1 = rawHumidity s.data
    rw [hH]

/-- Claim C5, witness: with averaging disabled two consecutive temperature
queries agree. -/
theorem claim_C5_witness :
    (readTemperature (readTemperature st5w).2).1 = (readTemperature st5w).1 :=
  (claim_C5 st5w rfl rfl rfl).2.2.1

/-- Claim C5, counterexample: with two-sample averaging enabled, the same
cached payload read twice with no intervening `available` call returns 200
first and 300 second, because each query mutates the averaging buffer. -/
theorem claim_C5_counterexample :
    (readTemperature st5).1 = 200 ∧
    (readTemperature (readTemperature st5).2).1 = 300 ∧
    (readTemperature st5).1 ≠ (readTemperature (readTemperature st5).2).1 := by
  refine ⟨?_, ?_, ?_⟩ <;> decide

/-- Writing a data slot and reading it back yields the written value. -/
theorem setData_self (d : Data) (i : Nat) (v : Nat) : setData d i v i = v := by
  simp [setData]

/-- Writing twice to the same data slot keeps only the second write. -/
theorem setData_setData (d : Data) (i : Nat) (v w : Nat) :
    setData (setData d i v) i w = setData d i w := by
  funext j
  by_cases h : j = i <;> simp [setData, h]

/-- Storing no bits leaves the data array unchanged, also when written as
a trivial update of byte `q`. -/
theorem storeBits_nil_setData (d : Data) (q : Nat) :
    d = setData d q (pushBits (d q) []) := by
  funext j
  by_cases h : j = q <;> simp [setData, pushBits, h]

/-- The bit-storing loop splits along list concatenation, with the bit
index advanced by the length of the first part. -/
theorem storeBits_append (l1 l2 : List Bool) :
    ∀ (d : Data) (i : Nat),
    storeBits d i (l1 ++ l2) = storeBits (storeBits d i l1) (i + l1.length) l2 := by
  induction l1 with
  | nil => intro d i; simp [storeBits]
  | cons b bs ih =>
    intro d i
    simp only [List.cons_append, storeBits]
    rw [List.append_eq, ih]
    have h : i + 1 + bs.length = i + (b :: bs).length := by
      simp only [List.length_cons]
      omega
    rw [h]

/-- A run of bits whose indices all fall in byte `q` only shifts those
bits into byte `q`. -/
theorem storeBits_fixed_byte (bs : List Bool) :
    ∀ (d : Data) (i q : Nat), (∀ k, k < bs.length → (i + k) / 8 = q) →
    storeBits d i bs = setData d q (pushBits (d q) bs) := by
  induction bs with
  | nil =>
    intro d i q _
    exact storeBits_nil_setData d q
  | cons b bs ih =>
    intro d i q hq
    have h0 : i / 8 = q := by
      have := hq 0 (by simp)
      simpa using this
    show storeBits (setData d (i / 8) (pushBit (d (i / 8)) b)) (i + 1) bs = _
    rw [h0]
    rw [ih (setData d q (pushBit (d q) b)) (i + 1) q ?hk]
    · rw [setData_self, setData_setData]
      rfl
    case hk =>
      intro k hk
      have h2 := hq (k + 1) (by simp; omega)
      have h3 : i + 1 + k = i + (k + 1) := by omega
      rw [h3]
      exact h2

/-- When the pulse list encodes a bit list (no timeouts, high beats low
exactly on 1 bits), the decoding loop succeeds and computes the pure
bit-storing fold of that bit list. -/
theorem readBytesGo_consistent :
    ∀ (ps : List (Nat × Nat)) (bs : List Bool) (i : Nat) (d : Data),
    consistentB ps bs = true → readBytesGo ps i d = (true, storeBits d i bs) := by
  intro ps
  induction ps with
  | nil =>
    intro bs i d h
    cases bs with
    | nil => rfl
    | cons b bs => simp [consistentB] at h
  | cons p ps ih =>
    intro bs i d h
    cases bs with
    | nil => simp [consistentB] at h
    | cons b bs =>
      simp only [consistentB, Bool.and_eq_true, Bool.not_eq_true',
        beq_eq_false_iff_ne, ne_eq, beq_iff_eq] at h
      obtain ⟨⟨⟨h1, h2⟩, h3⟩, h4⟩ := h
      simp only [readBytesGo, storeBits]
      rw [if_neg (by tauto)]
      rw [h3]
      exact ih bs (i + 1) _ h4

set_option maxRecDepth 8192 in
/-- Shifting in the eight MSB-first bits of a byte value below 256
reconstructs that byte. -/
theorem pushBits_bitsOfByte (b : Nat) (hb : b < 256) :
    pushBits 0 (bitsOfByte b) = b := by
  have h : ∀ x : Fin 256, pushBits 0 (bitsOfByte x.val) = x.val := by decide
  exact h ⟨b, hb⟩

/-- Claim C2: for every sequence of 40 non-zero pulse pairs in which the
high phase beats the low phase exactly on the 1 bits of the MSB-first bit
stream of five source bytes, `readBytes` succeeds and reconstructs exactly
those five bytes. -/
theorem claim_C2 (b0 b1 b2 b3 b4 : Nat) (ps : List (Nat × Nat))
    (hb0 : b0 < 256) (hb1 : b1 < 256) (hb2 : b2 < 256) (hb3 : b3 < 256) (hb4 : b4 < 256)
    (hc : consistentB ps (sourceBits b0 b1 b2 b3 b4) = true) :
    (readBytes ps).1 = true ∧
    (readBytes ps).2 0 = b0 ∧ (readBytes ps).2 1 = b1 ∧ (readBytes ps).2 2 = b2 ∧
    (readBytes ps).2 3 = b3 ∧ (readBytes ps).2 4 = b4 := by
  have hrb : readBytes ps = (true, storeBits zeroData 0 (sourceBits b0 b1 b2 b3 b4)) :=
    readBytesGo_consistent ps _ 0 zeroData hc
  have l8 : ∀ b : Nat, (bitsOfByte b).length = 8 := fun _ => rfl
  have hsplit : storeBits zeroData 0 (sourceBits b0 b1 b2 b3 b4)
      = storeBits (storeBits (storeBits (storeBits (storeBits zeroData 0 (bitsOfByte b0))
          8 (bitsOfByte b1)) 16 (bitsOfByte b2)) 24 (bitsOfByte b3)) 32 (bitsOfByte b4) := by
    unfold sourceBits
    rw [storeBits_append, storeBits_append, storeBits_append, storeBits_append]
    simp [List.length_append, l8]
  rw [hrb, hsplit]
  rw [storeBits_fixed_byte (bitsOfByte b0) zeroData 0 0 (by intro k hk; rw [l8] at hk; omega)]
  rw [storeBits_fixed_byte (bitsOfByte b1) _ 8 1 (by intro k hk; rw [l8] at hk; omega)]
  rw [storeBits_fixed_byte (bitsOfByte b2) _ 16 2 (by intro k hk; rw [l8] at hk; omega)]
  rw [storeBits_fixed_byte (bitsOfByte b3) _ 24 3 (by intro k hk; rw [l8] at hk; omega)]
  rw [storeBits_fixed_byte (bitsOfByte b4) _ 32 4 (by intro k hk; rw [l8] at hk; omega)]
  simp only [setData, zeroData]
  norm_num
  exact ⟨pushBits_bitsOfByte b0 hb0, pushBits_bitsOfByte b1 hb1, pushBits_bitsOfByte b2 hb2,
    pushBits_bitsOfByte b3 hb3, pushBits_bitsOfByte b4 hb4⟩

/-- Claim C2, witness: the payload 1, 142, 1, 44, 188 is reconstructed
from its synthetic pulse train. -/
theorem claim_C2_witness :
    (readBytes (pulsesOfBits (sourceBits 1 142 1 44 188))).1 = true ∧
    (readBytes (pulsesOfBits (sourceBits 1 142 1 44 188))).2 0 = 1 ∧
    (readBytes (pulsesOfBits (sourceBits 1 142 1 44 188))).2 1 = 142 ∧
    (readBytes (pulsesOfBits (sourceBits 1 142 1 44 188))).2 2 = 1 ∧
    (readBytes (pulsesOfBits (sourceBits 1 142 1 44 188))).2 3 = 44 ∧
    (readBytes (pulsesOfBits (sourceBits 1 142 1 44 188))).2 4 = 188 :=
  claim_C2 1 142 1 44 188 (pulsesOfBits (sourceBits 1 142 1 44 188))
    (by decide) (by decide) (by decide) (by decide) (by decide) (by decide)

/-- Masking with `0xFF` is reduction modulo 256. -/
theorem and255_eq_mod (x : Nat) : x &&& 255 = x % 256 := by
  simpa using Nat.and_pow_two_sub_one_eq_mod x 8

/-- The checksum test accepts exactly the payloads whose fifth byte is
the sum of the first four bytes modulo 256. -/
theorem checksumOkB_iff (d : Data) :
    checksumOkB d = true ↔ (d 0 + d 1 + d 2 + d 3) % 256 = d 4 := by
  unfold checksumOkB
  rw [and255_eq_mod, beq_iff_eq]

/-- The success flag of one attempt does not depend on the incoming data
array, because `readBytes` clears it first. -/
theorem runAttempt_fst (a : Attempt) (d : Data) : (runAttempt a d).1 = attemptOk a := by
  unfold attemptOk runAttempt
  by_cases hg : generateStart a = false <;> simp [hg]

/-- The three possible outcomes of one attempt: failed before touching
the data, failed with the decoded bytes, or succeeded with bytes that
pass the checksum. -/
theorem runAttempt_cases (a : Attempt) (d : Data) :
    runAttempt a d = (false, d) ∨
    runAttempt a d = (false, (readBytes a.pulses).2) ∨
    (runAttempt a d = (true, (readBytes a.pulses).2) ∧
      checksumOkB (readBytes a.pulses).2 = true) := by
  unfold runAttempt
  by_cases hg : generateStart a = false
  · left; simp [hg]
  · rw [if_neg hg]
    by_cases hr : (readBytes a.pulses).1 = false
    · right; left; rw [if_pos hr]
    · rw [if_neg hr]
      by_cases hc : checksumOkB (readBytes a.pulses).2 = false
      · right; left; rw [if_pos hc]
      · right; right
        rw [if_neg hc]
        exact ⟨rfl, by simpa using hc⟩

/-- A successful attempt publishes exactly the decoded bytes, and they
pass the checksum. -/
theorem runAttempt_of_ok (a : Attempt) (d : Data) (h : attemptOk a = true) :
    runAttempt a d = (true, (readBytes a.pulses).2) ∧
      checksumOkB (readBytes a.pulses).2 = true := by
  have hf := runAttempt_fst a d
  rcases runAttempt_cases a d with hc | hc | hc
  · rw [hc] at hf; simp [h] at hf
  · rw [hc] at hf; simp [h] at hf
  · exact hc

/-- The retry loop only looks at the attempts its fuel allows. -/
theorem runAttempts_congr (env env' : Nat → Attempt) :
    ∀ (fuel i : Nat) (d : Data), (∀ k, k < fuel → env (i + k) = env' (i + k)) →
    runAttempts env i fuel d = runAttempts env' i fuel d := by
  intro fuel
  induction fuel with
  | zero => intro i d _; rfl
  | succ n ih =>
    intro i d h
    have h0 : env i = env' i := by simpa using h 0 (by omega)
    simp only [runAttempts, h0]
    split
    · rfl
    · exact ih (i + 1) _ (fun k hk => by
        have hh := h (k + 1) (by omega)
        have he : i + 1 + k = i + (k + 1) := by omega
        rw [he]
        exact hh)

/-- When every attempt the fuel reaches fails, the loop counter runs to
`i + fuel` and the final status is failure. -/
theorem runAttempts_allFail (env : Nat → Attempt) :
    ∀ (fuel i : Nat) (d : Data), (∀ k, k < fuel → attemptOk (env (i + k)) = false) →
    (runAttempts env i fuel d).1 = i + fuel ∧ (runAttempts env i fuel d).2.1 = false := by
  intro fuel
  induction fuel with
  | zero => intro i d _; simp [runAttempts]
  | succ n ih =>
    intro i d h
    have h0 : attemptOk (env i) = false := by simpa using h 0 (by omega)
    have hr : (runAttempt (env i) d).1 = false := by rw [runAttempt_fst]; exact h0
    simp only [runAttempts, hr, Bool.false_eq_true, if_false]
    have hrec := ih (i + 1) ((runAttempt (env i) d).2) (fun k hk => by
      have hh := h (k + 1) (by omega)
      have he : i + 1 + k = i + (k + 1) := by omega
      rw [he]
      exact hh)
    exact ⟨by rw [hrec.1]; omega, hrec.2⟩

/-- The retry loop stops at the first successful attempt: if attempt `j`
(within fuel) succeeds after `j` failures, the loop returns counter
`i + j`, success, and that attempt's decoded bytes. -/
theorem runAttempts_firstSuccess (env : Nat → Attempt) :
    ∀ (fuel i j : Nat) (d : Data), j < fuel →
    (∀ k, k < j → attemptOk (env (i + k)) = false) → attemptOk (env (i + j)) = true →
    runAttempts env i fuel d = (i + j, true, (readBytes (env (i + j)).pulses).2) := by
  intro fuel
  induction fuel with
  | zero => intro i j d hj; exact absurd hj (by omega)
  | succ n ih =>
    intro i j d hj hfail hok
    cases j with
    | zero =>
      have hok0 : attemptOk (env i) = true := by simpa using hok
      have h := runAttempt_of_ok (env i) d hok0
      have hr : (runAttempt (env i) d).1 = true := by rw [h.1]
      simp only [runAttempts, hr, if_true]
      rw [h.1]
      simp
    | succ j' =>
      have h0 : attemptOk (env i) = false := by simpa using hfail 0 (by omega)
      have hr : (runAttempt (env i) d).1 = false := by rw [runAttempt_fst]; exact h0
      simp only [runAttempts, hr, Bool.false_eq_true, if_false]
      have he : ∀ m : Nat, i + 1 + m = i + (m + 1) := fun m => by omega
      have hrec := ih (i + 1) j' ((runAttempt (env i) d).2) (by omega)
        (fun k hk => by rw [he k]; exact hfail (k + 1) (by omega))
        (by rw [he j']; exact hok)
      rw [hrec, he j']

/-- Whenever the retry loop reports success, the bytes it publishes pass
the checksum. -/
theorem runAttempts_checksum (env : Nat → Attempt) :
    ∀ (fuel i : Nat) (d : Data), (runAttempts env i fuel d).2.1 = true →
    checksumOkB (runAttempts env i fuel d).2.2 = true := by
  intro fuel
  induction fuel with
  | zero => intro i d h; simp [runAttempts] at h
  | succ n ih =>
    intro i d h
    rcases runAttempt_cases (env i) d with hc | hc | ⟨hc, hcs⟩
    · have hr : (runAttempt (env i) d).1 = false := by rw [hc]
      simp only [runAttempts, hr, Bool.false_eq_true, if_false] at h ⊢
      exact ih (i + 1) _ h
    · have hr : (runAttempt (env i) d).1 = false := by rw [hc]
      simp only [runAttempts, hr, Bool.false_eq_true, if_false] at h ⊢
      exact ih (i + 1) _ h
    · have hr : (runAttempt (env i) d).1 = true := by rw [hc]
      simp only [runAttempts, hr, if_true] at h ⊢
      rw [hc]
      exact hcs

/-- Claim C1: a decoded payload whose checksum byte differs from the sum
of the first four bytes modulo 256 marks its attempt failed; whenever the
orchestrator reports success the published payload satisfies the
checksum; and after a failed orchestration both value queries return the
sentinel instead of anything derived from the rejected payload. -/
theorem claim_C1 (env : Nat → Attempt) (now : Nat) (s : DHTState) :
    (∀ (a : Attempt) (d : Data),
      (readBytes a.pulses).1 = true →
      (readBytes a.pulses).2 4 ≠
        ((readBytes a.pulses).2 0 + (readBytes a.pulses).2 1 +
         (readBytes a.pulses).2 2 + (readBytes a.pulses).2 3) % 256 →
      (runAttempt a d).1 = false) ∧
    ((readSensorData env now s).statusLastMeasurement = true →
      (readSensorData env now s).data 4 =
        ((readSensorData env now s).data 0 + (readSensorData env now s).data 1 +
         (readSensorData env now s).data 2 + (readSensorData env now s).data 3) % 256) ∧
    ((readSensorData env now s).statusLastMeasurement = false →
      readTemperature (readSensorData env now s) = (-1, readSensorData env now s) ∧
      readHumidity (readSensorData env now s) = (-1, readSensorData env now s)) := by
  refine ⟨?_, ?_, ?_⟩
  · intro a d hrb hne
    have hcs : checksumOkB (readBytes a.pulses).2 = false := by
      rw [Bool.eq_false_iff]
      intro hh
      rw [checksumOkB_iff] at hh
      exact hne hh.symm
    unfold runAttempt
    by_cases hg : generateStart a = false
    · simp [hg]
    · rw [if_neg hg, if_neg (by simp [hrb]), if_pos hcs]
  · intro h
    have hst : (runAttempts env 0 (s.maxReadRetries + 1) s.data).2.1 = true := h
    have hc := runAttempts_checksum env (s.maxReadRetries + 1) 0 s.data hst
    have := (checksumOkB_iff _).mp hc
    exact this.symm
  · intro h
    exact ⟨by simp [readTemperature, h], by simp [readHumidity, h]⟩

/-- Claim C1, witness: after an orchestration in which every attempt
fails, both value queries return the sentinel. -/
theorem claim_C1_witness :
    readTemperature (readSensorData envTimeout 5000 {}) =
      (-1, readSensorData envTimeout 5000 {}) ∧
    readHumidity (readSensorData envTimeout 5000 {}) =
      (-1, readSensorData envTimeout 5000 {}) :=
  (claim_C1 envTimeout 5000 {}).2.2 (by decide)

/-- A timeout sentinel anywhere in the captured pulse pairs makes the
decoding loop fail. -/
theorem readBytesGo_zero :
    ∀ (ps : List (Nat × Nat)) (i : Nat) (d : Data),
    (∃ p ∈ ps, p.1 = 0 ∨ p.2 = 0) → (readBytesGo ps i d).1 = false := by
  intro ps
  induction ps with
  | nil => intro i d h; simp at h
  | cons p ps ih =>
    intro i d h
    by_cases hp : p.1 = 0 ∨ p.2 = 0
    · simp [readBytesGo, hp]
    · rcases h with ⟨q, hq, hq0⟩
      simp only [List.mem_cons] at hq
      rcases hq with rfl | hq
      · exact absurd hq0 hp
      · simp only [readBytesGo, if_neg hp]
        exact ih (i + 1) _ ⟨q, hq, hq0⟩

/-- An attempt containing any timeout sentinel — in the start condition
or in the 80-sample capture — is marked failed. -/
theorem attemptOk_of_timeout (a : Attempt) (h : hasTimeoutB a = true) :
    attemptOk a = false := by
  unfold hasTimeoutB at h
  simp only [Bool.or_eq_true, beq_iff_eq, List.any_eq_true] at h
  unfold attemptOk runAttempt
  rcases h with (h | h) | h
  · have hg : generateStart a = false := by unfold generateStart; simp [h]
    simp [hg]
  · have hg : generateStart a = false := by unfold generateStart; simp [h]
    simp [hg]
  · have hz : (∃ p ∈ a.pulses, p.1 = 0 ∨ p.2 = 0) := by
      rcases h with ⟨p, hp, hp0⟩
      exact ⟨p, hp, by simpa using hp0⟩
    have hrb : (readBytes a.pulses).1 = false := readBytesGo_zero a.pulses 0 zeroData hz
    by_cases hg : generateStart a = false
    · simp [hg]
    · rw [if_neg hg, if_pos hrb]

/-- Claim C9: a timeout sentinel 0 in any pulse measurement of an attempt
marks that attempt failed; with at least one retry configured, a timeout
on attempt 0 followed by a good attempt 1 still ends in success (the
orchestrator proceeded to the next retry); and when every attempt within
the retry bound times out, the orchestration ends in terminal failure
with the retry counter at the configured maximum. -/
theorem claim_C9 (env : Nat → Attempt) (now : Nat) (s : DHTState) :
    (∀ a : Attempt, hasTimeoutB a = true → attemptOk a = false) ∧
    (1 ≤ s.maxReadRetries → hasTimeoutB (env 0) = true → attemptOk (env 1) = true →
      (readSensorData env now s).statusLastMeasurement = true ∧
      (readSensorData env now s).numReadRetries = 1) ∧
    ((∀ i, i ≤ s.maxReadRetries → hasTimeoutB (env i) = true) →
      (readSensorData env now s).statusLastMeasurement = false ∧
      (readSensorData env now s).numReadRetries = s.maxReadRetries) := by
  refine ⟨attemptOk_of_timeout, ?_, ?_⟩
  · intro hmax h0 h1
    have hfs := runAttempts_firstSuccess env (s.maxReadRetries + 1) 0 1 s.data
      (by omega)
      (fun k hk => by
        have hk0 : k = 0 := by omega
        subst hk0
        simpa using attemptOk_of_timeout _ h0)
      (by simpa using h1)
    constructor
    · show (runAttempts env 0 (s.maxReadRetries + 1) s.data).2.1 = true
      rw [hfs]
    · show min (runAttempts env 0 (s.maxReadRetries + 1) s.data).1 s.maxReadRetries = 1
      rw [hfs]
      simp
      omega
  · intro h
    have haf := runAttempts_allFail env (s.maxReadRetries + 1) 0 s.data
      (fun k hk => by simpa using attemptOk_of_timeout _ (h k (by omega)))
    constructor
    · exact haf.2
    · show min (runAttempts env 0 (s.maxReadRetries + 1) s.data).1 s.maxReadRetries
        = s.maxReadRetries
      rw [haf.1]
      simp

/-- Claim C9, witness: with every pulse measurement timing out on all
attempts, the orchestration fails terminally with the retry counter at
the default maximum 2. -/
theorem claim_C9_witness :
    (readSensorData envTimeout 7000 {}).statusLastMeasurement = false ∧
    (readSensorData envTimeout 7000 {}).numReadRetries = 2 := by
  have h := (claim_C9 envTimeout 7000 {}).2.2 (fun i _ => rfl)
  exact ⟨h.1, h.2⟩

/-- Claim C6: the orchestrator stamps the attempt time regardless of
outcome, caps the recorded retry count at the configured maximum, stops
at the first successful attempt (recording its index), reports terminal
failure with the capped retry count and sentinel value queries when every
attempt within the bound fails, consults at most `maxRetries + 1`
attempts of the environment, and `available` reports the orchestration
outcome once the minimum interval has passed. -/
theorem claim_C6 (env env' : Nat → Attempt) (now : Nat) (s : DHTState) :
    (readSensorData env now s).lastMeasurementTimestamp = now ∧
    (readSensorData env now s).numReadRetries ≤ s.maxReadRetries ∧
    (∀ j, j ≤ s.maxReadRetries → (∀ k, k < j → attemptOk (env k) = false) →
      attemptOk (env j) = true →
      (readSensorData env now s).statusLastMeasurement = true ∧
      (readSensorData env now s).numReadRetries = j) ∧
    ((∀ i, i ≤ s.maxReadRetries → attemptOk (env i) = false) →
      (readSensorData env now s).statusLastMeasurement = false ∧
      (readSensorData env now s).numReadRetries = s.maxReadRetries ∧
      getNumRetriesLastConversion (readSensorData env now s) = s.maxReadRetries ∧
      readTemperature (readSensorData env now s) = (-1, readSensorData env now s) ∧
      readHumidity (readSensorData env now s) = (-1, readSensorData env now s)) ∧
    ((∀ i, i ≤ s.maxReadRetries → env i = env' i) →
      readSensorData env now s = readSensorData env' now s) ∧
    (¬ elapsedMillis now s.lastMeasurementTimestamp < 2000 →
      (available env now s).1 = (readSensorData env now s).statusLastMeasurement) := by
  refine ⟨rfl, Nat.min_le_right _ _, ?_, ?_, ?_, ?_⟩
  · intro j hj hfail hok
    have hfs := runAttempts_firstSuccess env (s.maxReadRetries + 1) 0 j s.data
      (by omega)
      (fun k hk => by simpa using hfail k hk)
      (by simpa using hok)
    constructor
    · show (runAttempts env 0 (s.maxReadRetries + 1) s.data).2.1 = true
      rw [hfs]
    · show min (runAttempts env 0 (s.maxReadRetries + 1) s.data).1 s.maxReadRetries = j
      rw [hfs]
      simp
      omega
  · intro h
    have haf := runAttempts_allFail env (s.maxReadRetries + 1) 0 s.data
      (fun k hk => by simpa using h k (by omega))
    have hst : (readSensorData env now s).statusLastMeasurement = false := haf.2
    have hretr : (readSensorData env now s).numReadRetries = s.maxReadRetries := by
      show min (runAttempts env 0 (s.maxReadRetries + 1) s.data).1 s.maxReadRetries
        = s.maxReadRetries
      rw [haf.1]
      simp
    exact ⟨hst, hretr, hretr, by simp [readTemperature, hst], by simp [readHumidity, hst]⟩
  · intro h
    have hc := runAttempts_congr env env' (s.maxReadRetries + 1) 0 s.data
      (fun k hk => by simpa using h k (by omega))
    unfold readSensorData
    rw [hc]
  · intro h
    simp [available, h]

/-- Claim C6, witness: with the all-timeout environment, the default
state gets the new timestamp, a failed status and retry count 2, and both
value queries return the sentinel. -/
theorem claim_C6_witness :
    (readSensorData envTimeout 9000 {}).lastMeasurementTimestamp = 9000 ∧
    (readSensorData envTimeout 9000 {}).statusLastMeasurement = false ∧
    (readSensorData envTimeout 9000 {}).numReadRetries = 2 ∧
    readTemperature (readSensorData envTimeout 9000 {}) =
      (-1, readSensorData envTimeout 9000 {}) := by
  have h := claim_C6 envTimeout envTimeout 9000 {}
  have hd := h.2.2.2.1 (fun i _ => rfl)
  exact ⟨h.1, hd.1, hd.2.1, hd.2.2.2.1⟩

/-- Masking with `0x7F` is reduction modulo 128. -/
theorem and127_eq_mod (x : Nat) : x &&& 127 = x % 128 := by
  simpa using Nat.and_pow_two_sub_one_eq_mod x 7

set_option maxRecDepth 8192 in
/-- For a byte value, testing the `0x80` mask is testing `128 ≤ d`. -/
theorem and128_ne_iff (d : Nat) (hd : d < 256) : (d &&& 128 ≠ 0) ↔ 128 ≤ d := by
  have h : ∀ x : Fin 256, decide (x.val &&& 128 ≠ 0) = decide (128 ≤ x.val) := by decide
  exact decide_eq_decide.mp (h ⟨d, hd⟩)

/-- Shifting the high byte and or-ing in a low byte below 256 is plain
positional arithmetic. -/
theorem shiftOr_eq_add (a b : Nat) (hb : b < 256) : (a <<< 8) ||| b = a * 256 + b := by
  rw [Nat.shiftLeft_eq]
  have h := Nat.mul_add_lt_is_or (i := 8) (b := b) (by norm_num; omega) a
  calc a * 2 ^ 8 ||| b = 2 ^ 8 * a ||| b := by rw [Nat.mul_comm]
    _ = 2 ^ 8 * a + b := h.symm
    _ = a * 256 + b := by rw [Nat.mul_comm]

/-- The raw temperature decode is sign-magnitude arithmetic: 15 magnitude
bits in tenths of a degree, arithmetically negated when the top bit of
the high byte is set. -/
theorem rawTemperature_eq (d : Data) (h2 : d 2 < 256) (h3 : d 3 < 256) :
    rawTemperature d =
      if 128 ≤ d 2 then -(((d 2 % 128) * 256 + d 3 : Nat) : Int)
      else (((d 2 % 128) * 256 + d 3 : Nat) : Int) := by
  unfold rawTemperature
  rw [and127_eq_mod, shiftOr_eq_add _ _ h3]
  have hm : d 2 % 128 ≤ 127 := by omega
  have hb : (d 2 % 128) * 256 + d 3 ≤ 32767 := by omega
  have hb0 : (0 : Int) ≤ (((d 2 % 128) * 256 + d 3 : Nat) : Int) := Int.ofNat_nonneg _
  have hbi : (((d 2 % 128) * 256 + d 3 : Nat) : Int) ≤ 32767 := by exact_mod_cast hb
  rw [wrap16_eq_self (by omega) hbi]
  by_cases hs : d 2 &&& 128 ≠ 0
  · rw [if_pos hs, if_pos ((and128_ne_iff (d 2) h2).mp hs)]
    rw [wrap16_eq_self (by omega) (by omega)]
  · rw [if_neg hs, if_neg (fun hc => hs ((and128_ne_iff (d 2) h2).mpr hc))]

/-- Claim C8: the decoded temperature is sign-magnitude — the value is
the 15 low bits of the two temperature bytes in tenths of a degree,
arithmetically negated (not two's complement) when the top bit of the
high byte is set; in particular temperature bytes 0x80, 0x19 decode to
-25. -/
theorem claim_C8 (s : DHTState) (hs : s.statusLastMeasurement = true)
    (hav : s.temperatureSamples = none) (h2 : s.data 2 < 256) (h3 : s.data 3 < 256) :
    ((readTemperature s).1 =
      if 128 ≤ s.data 2 then -(((s.data 2 % 128) * 256 + s.data 3 : Nat) : Int)
      else (((s.data 2 % 128) * 256 + s.data 3 : Nat) : Int)) ∧
    (s.data 2 = 128 → s.data 3 = 25 → (readTemperature s).1 = -25) := by
  have hT : readTemperature s = (rawTemperature s.data, s) := by
    simp [readTemperature, hs, hav]
  constructor
  · rw [hT]
    exact rawTemperature_eq s.data h2 h3
  · intro ha hb
    rw [hT]
    show rawTemperature s.data = -25
    rw [rawTemperature_eq s.data h2 h3, ha, hb]
    norm_num

/-- Claim C8, witness: the state caching payload bytes 0x80, 0x19 reads
temperature -25. -/
theorem claim_C8_witness : (readTemperature st8).1 = -25 :=
  (claim_C8 st8 rfl rfl (by decide) (by decide)).2 rfl rfl

/-- Wrapping `int16_t` accumulation agrees with exact summation as long
as every intermediate sum stays in range. -/
theorem foldl_wrap16_eq_sum :
    ∀ (l : List Int) (a : Int),
    (∀ k, k ≤ l.length → -32768 ≤ a + (l.take k).sum ∧ a + (l.take k).sum ≤ 32767) →
    l.foldl (fun x y => wrap16 (x + y)) a = a + l.sum := by
  intro l
  induction l with
  | nil => intro a _; simp
  | cons x l ih =>
    intro a h
    have h1 : -32768 ≤ a + x ∧ a + x ≤ 32767 := by
      have hh := h 1 (by simp)
      rw [List.take_succ_cons, List.take_zero, List.sum_cons, List.sum_nil] at hh
      omega
    simp only [List.foldl_cons]
    rw [wrap16_eq_self h1.1 h1.2]
    rw [ih (a + x) (fun k hk => by
      have hh := h (k + 1) (by simpa using Nat.succ_le_succ hk)
      rw [List.take_succ_cons, List.sum_cons] at hh
      omega)]
    rw [List.sum_cons]
    omega

/-- The sample-sum loop computes the exact sum of the valid entries when
no intermediate sum overflows `int16_t`. -/
theorem sumSamples_eq (buf : List Int) (cnt : Nat) (h : PrefixBounded (buf.take cnt)) :
    sumSamples buf cnt = (buf.take cnt).sum := by
  unfold sumSamples
  have hh := foldl_wrap16_eq_sum (buf.take cnt) 0 (fun k hk => by
    have := h k hk
    omega)
  simpa using hh

/-- Claim C4 (amended): with averaging enabled, after a successful read a
value query whose decoded raw value is not -1 writes the raw value at
slot cursor-mod-capacity, advances the cursor, increments the valid-entry
count up to capacity, and returns the exact truncating integer mean of
the valid entries provided every intermediate `int16_t` sum stays in
range; a decoded raw value of -1 bypasses the averager. -/
theorem claim_C4 (s : DHTState) :
    (∀ (buf buf' : List Int) (cnt' : Nat),
      s.statusLastMeasurement = true →
      s.temperatureSamples = some buf →
      0 < s.numSamples →
      rawTemperature s.data ≠ -1 →
      buf' = buf.set (s.temperatureSampleIndex % s.numSamples) (rawTemperature s.data) →
      cnt' = (if s.numTemperatureSamples < s.numSamples
              then s.numTemperatureSamples + 1 else s.numTemperatureSamples) →
      PrefixBounded (buf'.take cnt') →
      readTemperature s =
        (Int.tdiv ((buf'.take cnt').sum) cnt',
         { s with
             temperatureSamples := some buf'
             temperatureSampleIndex := s.temperatureSampleIndex + 1
             numTemperatureSamples := cnt' })) ∧
    (∀ (buf buf' : List Int) (cnt' : Nat),
      s.statusLastMeasurement = true →
      s.humiditySamples = some buf →
      0 < s.numSamples →
      rawHumidity s.data ≠ -1 →
      buf' = buf.set (s.humiditySampleIndex % s.numSamples) (rawHumidity s.data) →
      cnt' = (if s.numHumiditySamples < s.numSamples
              then s.numHumiditySamples + 1 else s.numHumiditySamples) →
      PrefixBounded (buf'.take cnt') →
      readHumidity s =
        (Int.tdiv ((buf'.take cnt').sum) cnt',
         { s with
             humiditySamples := some buf'
             humiditySampleIndex := s.humiditySampleIndex + 1
             numHumiditySamples := cnt' })) := by
  constructor
  · intro buf buf' cnt' hs hbuf _ ht hbuf' hcnt'
    subst hbuf' hcnt'
    intro hpb
    rw [← sumSamples_eq _ _ hpb]
    simp [readTemperature, hs, hbuf, ht, foldSample]
  · intro buf buf' cnt' hs hbuf _ hh hbuf' hcnt'
    subst hbuf' hcnt'
    intro hpb
    rw [← sumSamples_eq _ _ hpb]
    simp [readHumidity, hs, hbuf, hh, foldSample]

/-- Claim C4, witness: folding raw value 300 into the two-slot buffer
holding one prior sample 100 stores it at slot 1, fills the window and
returns the truncated mean 200. -/
theorem claim_C4_witness :
    (readTemperature st4w).1 = 200 ∧
    (readTemperature st4w).2.numTemperatureSamples = 2 := by
  have h := (claim_C4 st4w).1 [100, 0] [100, 300] 2 rfl rfl (by decide) (by decide)
    (by decide) (by decide)
    (by unfold PrefixBounded; decide)
  rw [h]
  exact ⟨by decide, by decide⟩

/-- Claim C4, counterexample: a successful read decoding to raw value -1
(bytes 0x80, 0x01) bypasses the averager — nothing is written, the count
stays 1 and the query returns -1 rather than the mean — and a reachable
buffer of two 30000 samples makes the `int16_t` sum wrap, so the query
returns -2768 instead of the exact mean 30000. -/
theorem claim_C4_counterexample :
    ((readTemperature st4a).1 = -1 ∧
     (readTemperature st4a).2.numTemperatureSamples = 1 ∧
     ¬ ((readTemperature st4a).1 = Int.tdiv (100 + -1) 2 ∧
        (readTemperature st4a).2.numTemperatureSamples = 2)) ∧
    ((readTemperature st4b).1 = -2768 ∧
     (readTemperature st4b).1 ≠ Int.tdiv ((30000 : Int) + 30000) 2) := by
  constructor
  · refine ⟨by decide, by decide, ?_⟩
    intro hcl
    exact absurd hcl.2 (by decide)
  · exact ⟨by decide, by decide⟩

end DHT22
